import Mathlib

/-!
Verification of the employee management system (src/EMS.py).

The development shallowly embeds the data model and the operations of the
program: the field validators, the input loop, the record type, the MongoDB
persistence gateway (modelled as explicit state passing over a store value,
with a Boolean connectivity flag replacing the AutoReconnect exception), and
the session-local ordinal-to-identifier mapping.

Machine-level notes on the embedding:
- MongoDB ObjectId values are modelled as natural numbers; the store carries
  a counter supplying the fresh identifier that the driver would generate.
- Python float salaries always originate from digits-only validated strings,
  so they hold integral values and are modelled as naturals.
- The connectivity flag `conn` is `true` for a normal run of an operation and
  `false` for a run interrupted by pymongo.errors.AutoReconnect; each gateway
  method catches that exception at its own boundary, which the embedding
  renders as an `if conn` branch returning the documented sentinel.
-/

/-- Model of the Python str.isdigit test as used on ASCII input: true iff the
string is non-empty and every character is a decimal digit. -/
def pyIsDigit (s : String) : Bool :=
  !s.data.isEmpty && s.data.all (·.isDigit)

/-- Model of the Python int(...) conversion on digits-only strings: fold the
decimal digits from the left. -/
def pyInt (s : String) : Nat :=
  s.data.foldl (fun n c => n * 10 + (c.toNat - '0'.toNat)) 0

/-- Model of the Python str.strip method: drop leading and trailing
whitespace characters. -/
def pyStrip (s : String) : String :=
  ⟨((s.data.dropWhile Char.isWhitespace).reverse.dropWhile
      Char.isWhitespace).reverse⟩

/-- Model of the Python str.isalpha test on ASCII input: true iff the string
is non-empty and every character is a letter. -/
def pyIsAlpha (s : String) : Bool :=
  !s.data.isEmpty && s.data.all (·.isAlpha)

/-- Model of the Python expression s.replace(" ", ""): remove every space
character. -/
def removeSpaces (s : String) : String :=
  ⟨s.data.filter (fun c => !(c == ' '))⟩

/-- Validator.validate_name from EMS.py: the name with spaces removed must
consist of alphabetic characters only. -/
def validate_name (name : String) : Bool :=
  pyIsAlpha (removeSpaces name)

/-- Validator.validate_designation from EMS.py: same rule as for names. -/
def validate_designation (designation : String) : Bool :=
  pyIsAlpha (removeSpaces designation)

/-- Validator.validate_salary from EMS.py: salary.isdigit() and
int(salary) >= 500. -/
def validate_salary (salary : String) : Bool :=
  pyIsDigit salary && decide (500 ≤ pyInt salary)

/-- Validator.validate_age from EMS.py: age.isdigit() and
18 <= int(age) <= 99. -/
def validate_age (age : String) : Bool :=
  pyIsDigit age && (decide (18 ≤ pyInt age) && decide (pyInt age ≤ 99))

/-- Validator.validate_phone from EMS.py: phone.isdigit() and
len(phone) == 10. -/
def validate_phone (phone : String) : Bool :=
  pyIsDigit phone && decide (phone.length = 10)

/-- Validator.validate_address from EMS.py: the address must be non-empty
after stripping whitespace. -/
def validate_address (address : String) : Bool :=
  !((pyStrip address).data.isEmpty)

/-- The get_valid_input loop from EMS.py, run over an explicit list of
input tokens (the Python loop blocks for more input; the model returns
`none` when the token list is exhausted). Each token is stripped; in
allow-blank mode an empty stripped token is returned immediately, before
the validator is consulted; otherwise the validator decides whether the
token is returned or the loop continues. -/
def get_valid_input (inputs : List String) (validator : String → Bool)
    (allow_blank : Bool) : Option String :=
  match inputs with
  | [] => none
  | i :: rest =>
    let user_input := pyStrip i
    if user_input == "" && allow_blank then some ""
    else if validator user_input then some user_input
    else get_valid_input rest validator allow_blank

/-- Model of the Python expression x or y on strings: the empty string is
the only falsy string, so the result is y when x is empty and x otherwise. -/
def pyOrStr (x y : String) : String :=
  if x = "" then y else x

/-- The field-update pattern of confirm_modify_employee in EMS.py:
new_value = get_valid_input(prompt, validator, allow_blank=True) or old.
The caller, not the validator, substitutes the previous field value when
the blank signal comes back. -/
def modify_field (inputs : List String) (validator : String → Bool)
    (old : String) : Option String :=
  (get_valid_input inputs validator true).map (fun x => pyOrStr x old)

/-- The Employee dataclass of EMS.py: six data fields plus the optional
persistent identifier attribute (Python name: underscore id), which is
`none` until the record has been stored. Salary is a Python float built
from a digits-only validated string, hence integral and modelled as Nat;
the ObjectId is modelled as Nat. -/
structure Employee where
  name : String
  designation : String
  salary : Nat
  age : Nat
  phone : Nat
  address : String
  oid : Option Nat := none
deriving DecidableEq

/-- The six-key dictionary produced by Employee.to_dict in EMS.py. It
deliberately omits the identifier attribute. -/
structure DocFields where
  name : String
  designation : String
  salary : Nat
  age : Nat
  phone : Nat
  address : String
deriving DecidableEq

/-- Employee.get_id from EMS.py: accessor for the identifier attribute. -/
def Employee.get_id (e : Employee) : Option Nat :=
  e.oid

/-- Employee.to_dict from EMS.py: the dictionary holds name, designation,
salary, age, phone and address, and no identifier. -/
def Employee.to_dict (e : Employee) : DocFields :=
  { name := e.name
    designation := e.designation
    salary := e.salary
    age := e.age
    phone := e.phone
    address := e.address }

/-- A stored MongoDB document of the staff collection: the store-assigned
identifier plus the six data fields. -/
structure Doc where
  oid : Nat
  fields : DocFields
deriving DecidableEq

/-- The staff collection of the employees database: the documents in
natural enumeration order, plus the counter modelling the fresh ObjectId
the driver would assign to the next inserted document. -/
structure Store where
  docs : List Doc
  nextId : Nat
deriving DecidableEq

/-- The Employee(**emp) construction used when a document is read back from
the database: all six fields plus the identifier key of the document. -/
def docToEmployee (d : Doc) : Employee :=
  { name := d.fields.name
    designation := d.fields.designation
    salary := d.fields.salary
    age := d.fields.age
    phone := d.fields.phone
    address := d.fields.address
    oid := some d.oid }

/-- The document-to-object loop shared by get_employee_list and
search_employee in EMS.py: build one Employee object per document, in
order. -/
def buildEmployeeList : List Doc → List Employee
  | [] => []
  | d :: ds => docToEmployee d :: buildEmployeeList ds

/-- Database.get_employee_list from EMS.py: on a normal run, the list of
Employee objects for all documents in collection order; on an
AutoReconnect, the method falls through to its explicit `return None`,
modelled as `none`, distinct from `some []`. -/
def get_employee_list (conn : Bool) (s : Store) : Option (List Employee) :=
  if conn then some (buildEmployeeList s.docs) else none

/-- Database.insert_employee from EMS.py: append a document made of
to_dict plus a fresh store-assigned identifier, and report success; on an
AutoReconnect, report failure and leave the store unchanged. The triple
also exposes the identifier the driver assigned (result.inserted_id),
which becomes visible to the caller through the next list fetch. -/
def insert_employee (conn : Bool) (s : Store) (e : Employee) :
    Store × Bool × Nat :=
  if conn then
    (⟨s.docs ++ [⟨s.nextId, e.to_dict⟩], s.nextId + 1⟩, true, s.nextId)
  else (s, false, 0)

/-- The three outcomes of Database.get_employee_by_id in EMS.py: an
Employee object, the explicit `return None` when find_one matches nothing,
and the `return False` on AutoReconnect. -/
inductive FetchResult where
  | found (e : Employee)
  | notFound
  | failure
deriving DecidableEq

/-- Database.get_employee_by_id from EMS.py: find_one on the identifier,
Employee(**emp) on a match, `None` on no match, `False` on
AutoReconnect. -/
def get_employee_by_id (conn : Bool) (s : Store) (id : Nat) : FetchResult :=
  if conn then
    match s.docs.find? (fun d => d.oid == id) with
    | some d => FetchResult.found (docToEmployee d)
    | none => FetchResult.notFound
  else FetchResult.failure

/-- The three outcomes of Database.update_employee_by_id in EMS.py:
`return True` when modified_count > 0, the fall-through `return None`
when no document was modified, and `return False` on AutoReconnect. -/
inductive UpdateResult where
  | success
  | noop
  | failure
deriving DecidableEq

/-- Semantics of update_one with a $set of all six fields, as issued by
Database.update_employee_by_id: the first document whose identifier
matches has its six data fields replaced (the identifier is not part of
the payload and is kept); modified_count is 1 when that document actually
changed and 0 otherwise, in particular 0 when nothing matched. -/
def updateFirst (docs : List Doc) (id : Nat) (f : DocFields) :
    List Doc × Nat :=
  match docs with
  | [] => ([], 0)
  | d :: ds =>
    if d.oid = id then
      (⟨d.oid, f⟩ :: ds, if d.fields = f then 0 else 1)
    else
      let p := updateFirst ds id f
      (d :: p.1, p.2)

/-- Database.update_employee_by_id from EMS.py: $set the to_dict payload
on the matching document; `True` iff modified_count > 0, `None`
otherwise, `False` on AutoReconnect. -/
def update_employee_by_id (conn : Bool) (s : Store) (id : Nat)
    (e : Employee) : Store × UpdateResult :=
  if conn then
    let p := updateFirst s.docs id e.to_dict
    (⟨p.1, s.nextId⟩, if p.2 > 0 then UpdateResult.success else UpdateResult.noop)
  else (s, UpdateResult.failure)

/-- Semantics of delete_one as issued by Database.remove_employee_by_id:
remove the first document whose identifier matches; deleted_count is 1
when one was removed and 0 otherwise. -/
def deleteFirst (docs : List Doc) (id : Nat) : List Doc × Nat :=
  match docs with
  | [] => ([], 0)
  | d :: ds =>
    if d.oid = id then (ds, 1)
    else
      let p := deleteFirst ds id
      (d :: p.1, p.2)

/-- Database.remove_employee_by_id from EMS.py: delete_one on the
identifier; `True` iff deleted_count > 0, else `False`; `False` on
AutoReconnect with the store unchanged. -/
def remove_employee_by_id (conn : Bool) (s : Store) (id : Nat) :
    Store × Bool :=
  if conn then
    let p := deleteFirst s.docs id
    (⟨p.1, s.nextId⟩, p.2 > 0)
  else (s, false)

/-- Lower-cased character list of a string, for case-insensitive
matching. -/
def lowerChars (s : String) : List Char :=
  s.data.map Char.toLower

/-- Whether the pattern occurs in the haystack at offset i. -/
def substrAt (hay pat : List Char) (i : Nat) : Bool :=
  decide ((hay.drop i).take pat.length = pat)

/-- Case-insensitive substring containment. This models the MongoDB query
operator pair $regex with $options "i" on a metacharacter-free search
term, as used by Database.search_employee: the term matches a field value
iff the lower-cased term occurs contiguously in the lower-cased value. -/
def strContainsCI (hay pat : String) : Bool :=
  (List.range (hay.data.length + 1)).any
    (fun i => substrAt (lowerChars hay) (lowerChars pat) i)

/-- The $or filter of Database.search_employee from EMS.py: a document
matches the term iff its name, designation or address matches
case-insensitively. -/
def docMatches (d : Doc) (term : String) : Bool :=
  strContainsCI d.fields.name term || strContainsCI d.fields.designation term
    || strContainsCI d.fields.address term

/-- Database.search_employee from EMS.py: run the $or query and build one
Employee object per matching document, in collection order; on an
AutoReconnect, return the empty list - the same value a matchless search
returns. -/
def search_employee (conn : Bool) (s : Store) (term : String) :
    List Employee :=
  if conn then buildEmployeeList (s.docs.filter (fun d => docMatches d term))
  else []

/-- EmployeeManagementSystem.update_id_mapping from EMS.py: clear the
session dictionary and repopulate it with enumerate(employees, start=1),
mapping each display ordinal to the get_id value of that employee. The
result is the whole new mapping: after the clear, no prior entry
survives. -/
def update_id_mapping (employees : List Employee) :
    List (Nat × Option Nat) :=
  (List.enumFrom 1 employees).map (fun p => (p.1, p.2.get_id))

/-- The dictionary lookup self.id_mapping.get(employee_id) used by
modify_employee and delete_employee in EMS.py: the stored identifier for
the ordinal, or absence when the ordinal is not a key. -/
def resolve (m : List (Nat × Option Nat)) (k : Nat) : Option (Option Nat) :=
  List.lookup k m

/-- The Employee construction of add_employee in EMS.py: the validated
input strings are converted with float respectively int and the record is
built with no identifier. -/
def mkEmployee (nm ds sal ag ph ad : String) : Employee :=
  { name := nm
    designation := ds
    salary := pyInt sal
    age := pyInt ag
    phone := pyInt ph
    address := ad
    oid := none }

/-- Concrete record used for evaluating the operations: the employee of
the insertion scenario in the specification. -/
def fieldsAlice : DocFields :=
  ⟨"Alice Smith", "Engineer", 75000, 30, 1234567890, "221B Baker Street"⟩

/-- The same record as an in-memory Employee value, never persisted. -/
def eAlice : Employee :=
  ⟨"Alice Smith", "Engineer", 75000, 30, 1234567890, "221B Baker Street",
    none⟩

/-- Concrete one-document store holding the Alice record under
identifier 7. -/
def store1 : Store := ⟨[⟨7, fieldsAlice⟩], 8⟩

/-- Concrete stored document with designation Engineer. -/
def engineerDoc : Doc := ⟨1, fieldsAlice⟩

/-- Concrete stored document with designation Manager. -/
def managerDoc : Doc :=
  ⟨2, ⟨"Bob Jones", "Manager", 80000, 40, 9876543210, "10 Downing Street"⟩⟩

/-- Concrete two-document store for the search scenario. -/
def exampleStore : Store := ⟨[engineerDoc, managerDoc], 3⟩

theorem isEmpty_data (s : String) : s.data.isEmpty = s.isEmpty := by
  cases he : s.isEmpty with
  | true =>
    rw [String.isEmpty_iff] at he
    subst he
    rfl
  | false =>
    cases hd : s.data.isEmpty with
    | false => rfl
    | true =>
      exfalso
      have hnil : s.data = [] := by simpa using hd
      have hs : s = "" := by
        cases s with
        | mk data =>
          simp only [] at hnil
          rw [show ("" : String) = ⟨[]⟩ from rfl]
          exact congrArg String.mk hnil
      rw [hs] at he
      exact absurd he (by decide)

theorem toNat?_eq_pyInt (s : String) :
    s.toNat? = if pyIsDigit s then some (pyInt s) else none := by
  have hnat : pyIsDigit s = s.isNat := by
    unfold pyIsDigit String.isNat
    rw [String.all_eq, isEmpty_data]
  unfold String.toNat?
  rw [← hnat, String.foldl_eq]
  rfl

/-- C8: validate_salary accepts exactly the digits-only strings whose parsed
integer value is at least 500; equivalently, it accepts s iff String.toNat?
parses s to some n with 500 ≤ n. Numeric strings below 500 and non-numeric
strings are rejected. -/
theorem validate_salary_spec (s : String) :
    validate_salary s = true ↔ ∃ n, s.toNat? = some n ∧ 500 ≤ n := by
  rw [toNat?_eq_pyInt]
  unfold validate_salary
  cases h : pyIsDigit s with
  | false => simp [h]
  | true => simp [h]

theorem buildEmployeeList_eq_map (l : List Doc) :
    buildEmployeeList l = l.map docToEmployee := by
  induction l with
  | nil => rfl
  | cons d ds ih => simp [buildEmployeeList, ih]

/-- C7: on a normal run, list_records returns the stored records in the
natural enumeration order of the collection; on a transient connectivity
failure it returns the absence marker none, which is a different value
from some [], the result for an empty collection. -/
theorem get_employee_list_spec (s : Store) :
    get_employee_list true s = some (s.docs.map docToEmployee) ∧
    get_employee_list false s = none ∧
    get_employee_list false s ≠ some [] := by
  refine ⟨?_, rfl, by simp [get_employee_list]⟩
  simp [get_employee_list, buildEmployeeList_eq_map]

theorem enumFrom_get_id_map_fst (l : List Employee) (n : Nat) :
    ((List.enumFrom n l).map (fun p => (p.1, p.2.get_id))).map Prod.fst =
      List.range' n l.length := by
  induction l generalizing n with
  | nil => rfl
  | cons a l ih => simp [List.range'_succ, ih]

theorem lookup_enumFrom_get_id (l : List Employee) (n k : Nat) :
    List.lookup (n + k)
        ((List.enumFrom n l).map (fun p => (p.1, p.2.get_id))) =
      (l.get? k).map Employee.get_id := by
  induction l generalizing n k with
  | nil => simp [List.lookup]
  | cons a l ih =>
    cases k with
    | zero => simp [List.lookup]
    | succ k =>
      have hne : ((n + (k + 1)) == n) = false := by
        simp only [beq_eq_false_iff_ne]; omega
      simp only [List.enumFrom_cons, List.map_cons, List.lookup, hne,
        List.get?_cons_succ]
      rw [show n + (k + 1) = (n + 1) + k by omega]
      exact ih (n + 1) k

theorem lookup_enumFrom_get_id_below (l : List Employee) (n k : Nat)
    (h : k < n) :
    List.lookup k
        ((List.enumFrom n l).map (fun p => (p.1, p.2.get_id))) = none := by
  induction l generalizing n with
  | nil => simp [List.lookup]
  | cons a l ih =>
    have hne : (k == n) = false := by
      simp only [beq_eq_false_iff_ne]; omega
    simp only [List.enumFrom_cons, List.map_cons, List.lookup, hne]
    exact ih (n + 1) (by omega)

/-- C2: rebuilding the ordinal mapping from a record list of length N
produces a mapping whose key set is exactly 1..N (the dictionary is
cleared first, so the result is a pure function of the record list), with
ordinal k mapped to the identifier of the k-th record in iteration order;
resolving k+1 returns the identifier of record index k when it exists and
absence otherwise, and resolving 0 returns absence. -/
theorem update_id_mapping_resolve_spec (emps : List Employee) :
    (update_id_mapping emps).map Prod.fst = List.range' 1 emps.length ∧
    (∀ k : Nat, resolve (update_id_mapping emps) (k + 1) =
      (emps.get? k).map Employee.get_id) ∧
    resolve (update_id_mapping emps) 0 = none := by
  refine ⟨enumFrom_get_id_map_fst emps 1, ?_, ?_⟩
  · intro k
    have := lookup_enumFrom_get_id emps 1 k
    rw [show (1 : Nat) + k = k + 1 by omega] at this
    exact this
  · exact lookup_enumFrom_get_id_below emps 1 0 (by omega)

theorem updateFirst_map_oid (docs : List Doc) (id : Nat) (f : DocFields) :
    (updateFirst docs id f).1.map Doc.oid = docs.map Doc.oid := by
  induction docs with
  | nil => rfl
  | cons d ds ih =>
    by_cases h : d.oid = id
    · simp [updateFirst, h]
    · simp [updateFirst, h, ih]

theorem updateFirst_mem (docs : List Doc) (id : Nat) (f : DocFields) :
    ∀ d2 ∈ (updateFirst docs id f).1, d2 ∈ docs ∨ d2.fields = f := by
  induction docs with
  | nil => intro d2 h; simp [updateFirst] at h
  | cons d ds ih =>
    intro d2 h2
    by_cases h : d.oid = id
    · simp [updateFirst, h] at h2
      rcases h2 with h2 | h2
      · right; rw [h2]
      · left; exact List.mem_cons_of_mem d h2
    · simp [updateFirst, h] at h2
      rcases h2 with h2 | h2
      · left; simp [h2]
      · rcases ih d2 h2 with h3 | h3
        · left; exact List.mem_cons_of_mem d h3
        · right; exact h3

/-- C10: update_record overwrites at most the six employee data fields of
the matched document and never changes any stored identifier: the
identifier sequence of the store is unchanged by the update, and every
document of the updated store is either an untouched original document or
one whose data fields are exactly the to_dict payload of the new record
(which omits the identifier). -/
theorem update_frame_preserves_ids (conn : Bool) (s : Store) (id : Nat)
    (e : Employee) :
    (update_employee_by_id conn s id e).1.docs.map Doc.oid =
      s.docs.map Doc.oid ∧
    ∀ d2 ∈ (update_employee_by_id conn s id e).1.docs,
      d2 ∈ s.docs ∨ d2.fields = e.to_dict := by
  cases conn with
  | false => exact ⟨rfl, fun d2 h => Or.inl h⟩
  | true =>
    constructor
    · simpa [update_employee_by_id] using updateFirst_map_oid s.docs id e.to_dict
    · intro d2 h2
      exact updateFirst_mem s.docs id e.to_dict d2
        (by simpa [update_employee_by_id] using h2)

/-- C9: in allow-blank mode, a blank input token (empty, or whitespace that
strips to empty) is returned immediately as the empty-string signal,
independently of the validator; the caller-side pattern modelled by
modify_field then substitutes the previous field value, as pyOrStr of the
blank signal with the old value. -/
theorem get_valid_input_allow_blank_spec (v w : String → Bool)
    (rest : List String) (old : String) :
    get_valid_input ("" :: rest) v true = some "" ∧
    get_valid_input ("   " :: rest) v true = some "" ∧
    get_valid_input ("" :: rest) v true = get_valid_input ("" :: rest) w true ∧
    pyOrStr "" old = old ∧
    modify_field ("" :: rest) v old = some old := by
  exact ⟨rfl, rfl, rfl, rfl, rfl⟩

theorem deleteFirst_cons (d : Doc) (ds : List Doc) (id : Nat) :
    deleteFirst (d :: ds) id =
      if d.oid = id then (ds, 1)
      else (d :: (deleteFirst ds id).1, (deleteFirst ds id).2) := rfl

theorem deleteFirst_length (docs : List Doc) (id : Nat) :
    (deleteFirst docs id).1.length + (deleteFirst docs id).2 = docs.length ∧
    (deleteFirst docs id).2 ≤ 1 := by
  induction docs with
  | nil => exact ⟨rfl, Nat.zero_le 1⟩
  | cons d ds ih =>
    obtain ⟨ih1, ih2⟩ := ih
    by_cases h : d.oid = id
    · rw [deleteFirst_cons, if_pos h]
      simp
    · rw [deleteFirst_cons, if_neg h]
      simp only [List.length_cons]
      omega

theorem deleteFirst_cnt_iff (docs : List Doc) (id : Nat) :
    (deleteFirst docs id).2 = 1 ↔ ∃ d ∈ docs, d.oid = id := by
  induction docs with
  | nil => simp [deleteFirst]
  | cons d ds ih =>
    by_cases h : d.oid = id
    · rw [deleteFirst_cons, if_pos h]
      exact ⟨fun _ => ⟨d, List.mem_cons_self d ds, h⟩, fun _ => rfl⟩
    · rw [deleteFirst_cons, if_neg h]
      constructor
      · intro hc
        obtain ⟨d2, hmem, hoid⟩ := ih.mp hc
        exact ⟨d2, List.mem_cons_of_mem d hmem, hoid⟩
      · rintro ⟨d2, hmem, hoid⟩
        rcases List.mem_cons.mp hmem with heq | hmem2
        · exact absurd (heq ▸ hoid) h
        · exact ih.mpr ⟨d2, hmem2, hoid⟩

theorem deleteFirst_no_match (docs : List Doc) (id : Nat) :
    (docs.map Doc.oid).Nodup →
    ∀ d2 ∈ (deleteFirst docs id).1, d2.oid ≠ id := by
  induction docs with
  | nil => intro _ d2 h2; simp [deleteFirst] at h2
  | cons d ds ih =>
    intro hnd
    rw [List.map_cons, List.nodup_cons] at hnd
    obtain ⟨hd0, hnd2⟩ := hnd
    by_cases h : d.oid = id
    · rw [deleteFirst_cons, if_pos h]
      intro d2 h2 hoid
      apply hd0
      rw [h, ← hoid]
      exact List.mem_map_of_mem Doc.oid h2
    · rw [deleteFirst_cons, if_neg h]
      intro d2 h2
      rcases List.mem_cons.mp h2 with heq | h3
      · rw [heq]; exact h
      · exact ih hnd2 d2 h3

/-- C4: delete_record reports true exactly when one document was removed
(the store shrinks by one document), false on a connectivity failure with
the store unchanged, and for an identifier present in a store with
duplicate-free identifiers, deleting twice reports true the first time
and false the second. -/
theorem remove_employee_by_id_spec (s : Store) (id : Nat)
    (hnd : (s.docs.map Doc.oid).Nodup) :
    ((remove_employee_by_id true s id).2 = true ↔
      (remove_employee_by_id true s id).1.docs.length + 1 = s.docs.length) ∧
    (remove_employee_by_id false s id).2 = false ∧
    (remove_employee_by_id false s id).1 = s ∧
    ((∃ d ∈ s.docs, d.oid = id) →
      (remove_employee_by_id true s id).2 = true ∧
      (remove_employee_by_id true (remove_employee_by_id true s id).1 id).2 =
        false) := by
  obtain ⟨hlen, hle⟩ := deleteFirst_length s.docs id
  refine ⟨?_, rfl, rfl, ?_⟩
  · simp only [remove_employee_by_id, if_pos, decide_eq_true_eq]
    constructor
    · intro h; omega
    · intro h; omega
  · intro hex
    have hpos : (deleteFirst s.docs id).2 = 1 :=
      (deleteFirst_cnt_iff s.docs id).mpr hex
    constructor
    · simp [remove_employee_by_id, hpos]
    · have hnomatch := deleteFirst_no_match s.docs id hnd
      have hcnt2 : (deleteFirst (deleteFirst s.docs id).1 id).2 = 0 := by
        obtain ⟨_, hle2⟩ := deleteFirst_length (deleteFirst s.docs id).1 id
        by_contra hne
        have h1 : (deleteFirst (deleteFirst s.docs id).1 id).2 = 1 := by omega
        obtain ⟨d2, hmem, hoid⟩ := (deleteFirst_cnt_iff _ id).mp h1
        exact hnomatch d2 hmem hoid
      simp [remove_employee_by_id, hcnt2]

theorem remove_employee_by_id_spec_witness :
    (remove_employee_by_id true store1 7).2 = true ∧
    (remove_employee_by_id true (remove_employee_by_id true store1 7).1 7).2 =
      false :=
  (remove_employee_by_id_spec store1 7 (by decide)).2.2.2 (by decide)

theorem updateFirst_cons (d : Doc) (ds : List Doc) (id : Nat)
    (f : DocFields) :
    updateFirst (d :: ds) id f =
      if d.oid = id then (⟨d.oid, f⟩ :: ds, if d.fields = f then 0 else 1)
      else (d :: (updateFirst ds id f).1, (updateFirst ds id f).2) := rfl

theorem updateFirst_cnt_zero (docs : List Doc) (id : Nat) (f : DocFields) :
    (∀ d ∈ docs, d.oid = id → d.fields = f) →
    (updateFirst docs id f).2 = 0 := by
  induction docs with
  | nil => intro _; rfl
  | cons d ds ih =>
    intro h
    by_cases hd : d.oid = id
    · rw [updateFirst_cons, if_pos hd]
      have hf : d.fields = f := h d (List.mem_cons_self d ds) hd
      simp [hf]
    · rw [updateFirst_cons, if_neg hd]
      exact ih (fun d2 h2 => h d2 (List.mem_cons_of_mem d h2))

theorem updateFirst_cnt_one (docs : List Doc) (id : Nat) (f : DocFields) :
    (docs.map Doc.oid).Nodup →
    (∃ d ∈ docs, d.oid = id ∧ d.fields ≠ f) →
    (updateFirst docs id f).2 = 1 := by
  induction docs with
  | nil => intro _ hex; simp at hex
  | cons d ds ih =>
    intro hnd hex
    rw [List.map_cons, List.nodup_cons] at hnd
    obtain ⟨hd0, hnd2⟩ := hnd
    obtain ⟨d2, hmem, hoid, hfld⟩ := hex
    by_cases hd : d.oid = id
    · rw [updateFirst_cons, if_pos hd]
      rcases List.mem_cons.mp hmem with heq | hmem2
      · subst heq
        simp [hfld]
      · exact absurd
          (by rw [hd, ← hoid]; exact List.mem_map_of_mem Doc.oid hmem2) hd0
    · rw [updateFirst_cons, if_neg hd]
      rcases List.mem_cons.mp hmem with heq | hmem2
      · exact absurd (heq ▸ hoid) hd
      · exact ih hnd2 ⟨d2, hmem2, hoid, hfld⟩

theorem update_employee_true (s : Store) (id : Nat) (e : Employee) :
    update_employee_by_id true s id e =
      (⟨(updateFirst s.docs id e.to_dict).1, s.nextId⟩,
        if (updateFirst s.docs id e.to_dict).2 > 0 then UpdateResult.success
        else UpdateResult.noop) := rfl

/-- C1 as stated fails on the code: update_record called with an
identifier absent from the store reports the no-op value (the Python
method falls through to return None because modified_count is 0), which
is a different value from the failure sentinel False that the claim
demands for this case. -/
theorem update_absent_identifier_not_failure :
    (update_employee_by_id true ⟨[], 1⟩ 3 eAlice).2 = UpdateResult.noop ∧
    UpdateResult.noop ≠ UpdateResult.failure :=
  ⟨rfl, by decide⟩

/-- C1 amended: update_record returns a tri-state result in which success
means at least one document was modified, failure is reported exactly on
transient connectivity error, and no-op is reported whenever no document
was modified - both when the matched document already carries the new
values (in particular, a new record identical to the stored one reports
no-op, not success) and when no document matches the identifier. -/
theorem update_employee_by_id_tri_state (s : Store) (id : Nat)
    (e : Employee) (hnd : (s.docs.map Doc.oid).Nodup) :
    (update_employee_by_id false s id e).2 = UpdateResult.failure ∧
    (update_employee_by_id true s id e).2 ≠ UpdateResult.failure ∧
    ((∀ d ∈ s.docs, d.oid = id → d.fields = e.to_dict) →
      (update_employee_by_id true s id e).2 = UpdateResult.noop) ∧
    ((∃ d ∈ s.docs, d.oid = id ∧ d.fields ≠ e.to_dict) →
      (update_employee_by_id true s id e).2 = UpdateResult.success) := by
  refine ⟨rfl, ?_, ?_, ?_⟩
  · rw [update_employee_true]
    dsimp only
    split
    · simp
    · simp
  · intro h
    simp [update_employee_true, updateFirst_cnt_zero s.docs id e.to_dict h]
  · intro h
    simp [update_employee_true, updateFirst_cnt_one s.docs id e.to_dict hnd h]

theorem update_employee_by_id_tri_state_witness :
    (update_employee_by_id false store1 7 eAlice).2 = UpdateResult.failure ∧
    (update_employee_by_id true store1 7 eAlice).2 = UpdateResult.noop :=
  ⟨(update_employee_by_id_tri_state store1 7 eAlice (by decide)).1,
    (update_employee_by_id_tri_state store1 7 eAlice (by decide)).2.2.1
      (by decide)⟩

theorem update_frame_preserves_ids_witness :
    (update_employee_by_id true store1 7 eAlice).1.docs.map Doc.oid =
      store1.docs.map Doc.oid ∧
    ((⟨7, fieldsAlice⟩ : Doc) ∈ store1.docs ∨
      (⟨7, fieldsAlice⟩ : Doc).fields = eAlice.to_dict) :=
  ⟨(update_frame_preserves_ids true store1 7 eAlice).1,
    (update_frame_preserves_ids true store1 7 eAlice).2 ⟨7, fieldsAlice⟩
      (by decide)⟩

theorem find?_append_fresh (docs : List Doc) (x : Doc) (n : Nat)
    (h : ∀ d ∈ docs, d.oid ≠ n) (hx : x.oid = n) :
    (docs ++ [x]).find? (fun d => d.oid == n) = some x := by
  induction docs with
  | nil => simp [List.find?, hx]
  | cons d ds ih =>
    have hd : (d.oid == n) = false := by
      simp only [beq_eq_false_iff_ne]
      exact h d (List.mem_cons_self d ds)
    rw [List.cons_append, List.find?_cons_of_neg _ (by simp [hd]),
      ih (fun d2 h2 => h d2 (List.mem_cons_of_mem d h2))]

theorem get_employee_by_id_true (s : Store) (id : Nat) :
    get_employee_by_id true s id =
      match s.docs.find? (fun d => d.oid == id) with
      | some d => FetchResult.found (docToEmployee d)
      | none => FetchResult.notFound := rfl

/-- C3: for every sextuple of field strings passing the six validators,
constructing the record as add_employee does, inserting it into a store
whose documents do not already use the fresh identifier, and fetching by
the identifier assigned at insertion succeeds and yields a record equal
to the original in all six fields. -/
theorem insert_then_get_round_trip (s : Store) (nm ds sal ag ph ad : String)
    (h1 : validate_name nm = true) (h2 : validate_designation ds = true)
    (h3 : validate_salary sal = true) (h4 : validate_age ag = true)
    (h5 : validate_phone ph = true) (h6 : validate_address ad = true)
    (hfresh : ∀ d ∈ s.docs, d.oid ≠ s.nextId) :
    (insert_employee true s (mkEmployee nm ds sal ag ph ad)).2.1 = true ∧
    ∃ e2 : Employee,
      get_employee_by_id true
          (insert_employee true s (mkEmployee nm ds sal ag ph ad)).1
          (insert_employee true s (mkEmployee nm ds sal ag ph ad)).2.2 =
        FetchResult.found e2 ∧
      e2.name = nm ∧ e2.designation = ds ∧ e2.salary = pyInt sal ∧
      e2.age = pyInt ag ∧ e2.phone = pyInt ph ∧ e2.address = ad := by
  refine ⟨rfl,
    docToEmployee ⟨s.nextId, (mkEmployee nm ds sal ag ph ad).to_dict⟩,
    ?_, rfl, rfl, rfl, rfl, rfl, rfl⟩
  have hdocs :
      (insert_employee true s (mkEmployee nm ds sal ag ph ad)).1.docs =
        s.docs ++ [⟨s.nextId, (mkEmployee nm ds sal ag ph ad).to_dict⟩] := rfl
  have hid :
      (insert_employee true s (mkEmployee nm ds sal ag ph ad)).2.2 =
        s.nextId := rfl
  have hfind := find?_append_fresh s.docs
    ⟨s.nextId, (mkEmployee nm ds sal ag ph ad).to_dict⟩ s.nextId hfresh rfl
  rw [get_employee_by_id_true, hdocs, hid, hfind]

theorem insert_then_get_round_trip_witness :
    (insert_employee true ⟨[], 5⟩
      (mkEmployee "Alice Smith" "Engineer" "75000" "30" "1234567890"
        "221B Baker Street")).2.1 = true ∧
    ∃ e2 : Employee,
      get_employee_by_id true
          (insert_employee true ⟨[], 5⟩
            (mkEmployee "Alice Smith" "Engineer" "75000" "30" "1234567890"
              "221B Baker Street")).1
          (insert_employee true ⟨[], 5⟩
            (mkEmployee "Alice Smith" "Engineer" "75000" "30" "1234567890"
              "221B Baker Street")).2.2 =
        FetchResult.found e2 ∧
      e2.name = "Alice Smith" ∧ e2.designation = "Engineer" ∧
      e2.salary = pyInt "75000" ∧ e2.age = pyInt "30" ∧
      e2.phone = pyInt "1234567890" ∧ e2.address = "221B Baker Street" :=
  insert_then_get_round_trip ⟨[], 5⟩ "Alice Smith" "Engineer" "75000" "30"
    "1234567890" "221B Baker Street" (by decide) (by decide) (by decide)
    (by decide) (by decide) (by decide) (by decide)

/-- C5: search_records returns exactly the records whose name, designation
or address case-insensitively contains the term: the result is the
filtered document list converted to records in collection order, a record
is in the result iff some stored document matches and the record is its
conversion, and on the concrete scenario the term engineer matches the
record with designation Engineer and excludes the one with designation
Manager. -/
theorem search_employee_matches_spec (s : Store) (term : String) :
    search_employee true s term =
      (s.docs.filter (fun d => docMatches d term)).map docToEmployee ∧
    (∀ e : Employee, e ∈ search_employee true s term ↔
      ∃ d ∈ s.docs, docMatches d term = true ∧ e = docToEmployee d) ∧
    search_employee true exampleStore "engineer" =
      [docToEmployee engineerDoc] ∧
    docMatches engineerDoc "engineer" = true ∧
    docMatches managerDoc "engineer" = false := by
  have h1 : search_employee true s term =
      (s.docs.filter (fun d => docMatches d term)).map docToEmployee := by
    simp [search_employee, buildEmployeeList_eq_map]
  refine ⟨h1, ?_, by decide, by decide, by decide⟩
  intro e
  rw [h1]
  simp only [List.mem_map, List.mem_filter]
  constructor
  · rintro ⟨d, ⟨hmem, hmatch⟩, heq⟩
    exact ⟨d, hmem, hmatch, heq.symm⟩
  · rintro ⟨d, hmem, hmatch, heq⟩
    exact ⟨d, ⟨hmem, hmatch⟩, heq.symm⟩

/-- C6: when no stored document matches the term, a normal search and a
search hit by a connectivity failure both return the empty list, so the
two outcomes are indistinguishable to the caller. -/
theorem search_failure_indistinguishable (s : Store) (term : String)
    (h : ∀ d ∈ s.docs, docMatches d term = false) :
    search_employee true s term = [] ∧
    search_employee false s term = [] ∧
    search_employee true s term = search_employee false s term := by
  have h1 : s.docs.filter (fun d => docMatches d term) = [] :=
    List.filter_eq_nil_iff.mpr (fun d hd => by simp [h d hd])
  refine ⟨?_, rfl, ?_⟩ <;> simp [search_employee, h1, buildEmployeeList]

theorem search_failure_indistinguishable_witness :
    search_employee true ⟨[managerDoc], 3⟩ "engineer" = [] ∧
    search_employee false ⟨[managerDoc], 3⟩ "engineer" = [] ∧
    search_employee true ⟨[managerDoc], 3⟩ "engineer" =
      search_employee false ⟨[managerDoc], 3⟩ "engineer" :=
  search_failure_indistinguishable ⟨[managerDoc], 3⟩ "engineer" (by decide)
